import Mathlib

/-
Verification of the movie ticket booking backend's show controller
(the external-data synchronization and show-scheduling subsystem).

Shallow embedding notes:
* Date-time instants are modelled as their canonical ISO-8601 strings
  "YYYY-MM-DDTHH:MM" (the server is assumed to run in UTC, so the string
  built by addShow from a date and a time is also the instant's ISO form).
  For such fixed-width canonical strings, byte-lexicographic order agrees
  with chronological order, so the comparison used by the `$gte` queries
  is modelled by the lexicographic `dateLe` below, and the
  `toISOString().split("T")[0]` date component is the prefix before `T`.
* The persistence layer (MongoDB via Mongoose) is modelled as in-memory
  lists: `Movie.findById` is a search by `_id`, `Movie.create` appends
  (its possible rejection, e.g. a duplicate-key error, is an oracle
  parameter), `Show.insertMany` appends all documents assigning fresh
  numeric ids, and `Show.find` filters in insertion order (a find without
  an explicit sort returns natural order).  `populate('movie')` resolves
  the referenced id against the movie store; Mongoose assigns one shared
  document instance per id, so the JS `Set` dedup-by-identity is
  dedup-by-value of the resolved record.
* `axios.get` outcomes are oracle functions `Nat → Except Err ρ` giving
  the outcome of attempt number i; the HTTP timeout itself is not
  modelled (it only shapes which attempts fail).
* `Promise.all` rejection is modelled as surfacing the details-fetch
  error first when both fetches fail (the rejection actually delivered
  depends on timing; the claims do not depend on the choice).
* A fetch trace records, besides the result, the number of attempts
  issued and the list of backoff delays slept, in order.
-/

/-- An exception / rejection value; only its message is observed. -/
structure Err where
  message : String
deriving DecidableEq, Repr

/-- Outcome of `fetchWithRetry`: a response, a thrown error, or the
implicit `undefined` returned when the loop body never runs. -/
inductive FetchResult (ρ : Type) where
  | ok (r : ρ)
  | err (e : Err)
  | undef
deriving DecidableEq, Repr

/-- Result of a `fetchWithRetry` call together with its observable
effects: number of attempts issued and backoff delays slept (ms). -/
structure FetchTrace (ρ : Type) where
  result : FetchResult ρ
  attempts : Nat
  delays : List Nat
deriving DecidableEq, Repr

def TMDB_TIMEOUT : Nat := 15000

def MAX_RETRIES : Int := 3

def RETRY_DELAY : Nat := 1000

/-- The retry loop of `fetchWithRetry`: `for (let i = 0; i < retries; i++)`.
`fuel` is the number of remaining iterations (initially `retries`), `i`
the current loop index.  The body either returns the response, throws on
the last allowed attempt, or sleeps `RETRY_DELAY * 2^i` and retries. -/
def fetchLoop {ρ : Type} (attempt : Nat → Except Err ρ) (retries : Nat) :
    Nat → Nat → FetchTrace ρ
  | 0, _ => ⟨.undef, 0, []⟩
  | fuel + 1, i =>
    match attempt i with
    | .ok r => ⟨.ok r, 1, []⟩
    | .error e =>
      if i = retries - 1 then
        ⟨.err e, 1, []⟩
      else
        let rest := fetchLoop attempt retries fuel (i + 1)
        ⟨rest.result, rest.attempts + 1, (RETRY_DELAY * 2 ^ i) :: rest.delays⟩

/-- Model of `fetchWithRetry(url, retries)`.  The url is abstracted away: the
attempt oracle stands for `axios.get(url, axiosConfig)` on attempt i.
When `retries <= 0` the `for` loop body never executes and the function
falls through, returning `undefined`. -/
def fetchWithRetry {ρ : Type} (attempt : Nat → Except Err ρ) (retries : Int) :
    FetchTrace ρ :=
  fetchLoop attempt retries.toNat retries.toNat 0

/-- Lexicographic order on character lists; on the canonical fixed-width
ISO strings used for `showDateTime` it coincides with chronological
order of the underlying instants, which is what the `$gte` query and
JS `Date` comparison observe. -/
def leChars : List Char → List Char → Bool
  | [], _ => true
  | _ :: _, [] => false
  | a :: as, b :: bs => if a = b then leChars as bs else decide (a < b)

/-- Comparison `a <= b` as instants, for canonical ISO date-time strings. -/
def dateLe (a b : String) : Bool :=
  leChars a.data b.data

/-- Model of `d.toISOString().split("T")[0]`: the UTC calendar-date component of
a canonical ISO date-time string — the prefix before the `T`
separator. -/
def dateOf (s : String) : String :=
  ⟨s.data.takeWhile (fun c => c ≠ 'T')⟩

/-- The payload of the TMDB `movie/{id}` details response, with the
fields the controller reads (the external interface of §6: title,
overview, poster_path, backdrop_path, genres, casts, release_date,
original_language, tagline (optional), vote_average, runtime). -/
structure TmdbMovie where
  title : String
  overview : String
  poster_path : String
  backdrop_path : String
  genres : List String
  casts : List String
  release_date : String
  original_language : String
  tagline : Option String
  vote_average : ℚ
  runtime : ℕ
deriving DecidableEq, Repr

/-- The payload of the TMDB `movie/{id}/credits` response.  The
controller fetches it but never reads its fields. -/
structure TmdbCredits where
  cast : List String
deriving DecidableEq, Repr

/-- A persisted Movie document (the shape built at addShow lines 59–72). -/
structure Movie where
  _id : String
  title : String
  overview : String
  poster_path : String
  backdrop_path : String
  genres : List String
  casts : List String
  release_date : String
  original_language : String
  tagline : String
  vote_average : ℚ
  runtime : ℕ
deriving DecidableEq, Repr

/-- A Show document as built by addShow, before insertion assigns `_id`. -/
structure ShowDoc where
  movie : String
  showDateTime : String
  showPrice : ℚ
  occupiedSeats : List (String × String)
deriving DecidableEq, Repr

/-- A persisted Show document (with its storage-assigned `_id`). -/
structure StoredShow where
  _id : ℕ
  movie : String
  showDateTime : String
  showPrice : ℚ
  occupiedSeats : List (String × String)
deriving DecidableEq, Repr

/-- The persisted state: the Movie and Show collections (in insertion
order) and the next fresh Show id. -/
structure DB where
  movies : List Movie
  shows : List StoredShow
  nextId : ℕ
deriving DecidableEq, Repr

/-- Lookup `Movie.findById(movieId)`: first movie whose `_id` matches. -/
def findMovie (movies : List Movie) (movieId : String) : Option Movie :=
  movies.find? (fun m => m._id == movieId)

/-- The `movieDetails` object of addShow lines 59–72: every field is
taken verbatim from the details response, except `tagline`, which is
`movieApiData.tagline || ""`. -/
def normalizeMovie (movieId : String) (d : TmdbMovie) : Movie :=
  { _id := movieId
    title := d.title
    overview := d.overview
    poster_path := d.poster_path
    backdrop_path := d.backdrop_path
    genres := d.genres
    casts := d.casts
    release_date := d.release_date
    original_language := d.original_language
    tagline := match d.tagline with
      | some t => t
      | none => ""
    vote_average := d.vote_average
    runtime := d.runtime }

/-- Result of the movie-resolution step of addShow (lines 46–80): the
resolved movie together with the updated movie store on success, or the
`apiError` caught at line 76; plus the number of details-fetches and
credits-fetches issued (each counts one `fetchWithRetry` call). -/
structure ResolveOut where
  outcome : Except Err (Movie × List Movie)
  detailsFetches : ℕ
  creditsFetches : ℕ
deriving Repr

/-- The movie-resolution step of addShow (lines 46–80): look the id up;
if absent, issue the two concurrent fetches, normalize, and persist via
`Movie.create` (whose possible rejection is the oracle `createErr`).
Any failure inside the inner `try` becomes the `apiError` outcome. -/
def resolveMovie (movies : List Movie) (movieId : String)
    (dAtt : Nat → Except Err TmdbMovie) (cAtt : Nat → Except Err TmdbCredits)
    (createErr : Option Err) : ResolveOut :=
  match findMovie movies movieId with
  | some movie => ⟨.ok (movie, movies), 0, 0⟩
  | none =>
    let dRes := fetchWithRetry dAtt MAX_RETRIES
    let cRes := fetchWithRetry cAtt MAX_RETRIES
    match dRes.result, cRes.result with
    | .ok d, .ok _ =>
      match createErr with
      | some e => ⟨.error e, 1, 1⟩
      | none =>
        let movieDetails := normalizeMovie movieId d
        ⟨.ok (movieDetails, movies ++ [movieDetails]), 1, 1⟩
    | .err e, _ => ⟨.error e, 1, 1⟩
    | _, .err e => ⟨.error e, 1, 1⟩
    | _, _ => ⟨.error ⟨"Cannot read properties of undefined"⟩, 1, 1⟩

/-- A schedule entry of `showsInput`: `{date, time: [...]}`. -/
structure ScheduleEntry where
  date : String
  time : List String
deriving DecidableEq, Repr

/-- The `showsToCreate` array built at addShow lines 82–94: for each
entry in order and each time in order, one document with
`showDateTime = new Date(date + "T" + time)`, the given price, and an
empty seat-occupancy mapping. -/
def buildShows (movieId : String) (showPrice : ℚ) :
    List ScheduleEntry → List ShowDoc
  | [] => []
  | s :: rest =>
    s.time.map (fun t =>
      { movie := movieId
        showDateTime := s.date ++ "T" ++ t
        showPrice := showPrice
        occupiedSeats := [] })
      ++ buildShows movieId showPrice rest

/-- Bulk insert `Show.insertMany`: append all documents, assigning fresh ids. -/
def insertManyShows (db : DB) (docs : List ShowDoc) : DB :=
  { movies := db.movies
    shows := db.shows ++ docs.enum.map (fun p =>
      { _id := db.nextId + p.1
        movie := p.2.movie
        showDateTime := p.2.showDateTime
        showPrice := p.2.showPrice
        occupiedSeats := p.2.occupiedSeats })
    nextId := db.nextId + docs.length }

/-- A controller response: `{success:true, ...payload}` or
`{success:false, message}`. -/
inductive Resp (π : Type) where
  | success (payload : π)
  | failure (message : String)
deriving DecidableEq, Repr

/-- The `now_playing` response payload: `{ data: { results: [...] } }`. -/
structure NowPlayingData where
  results : List TmdbMovie
deriving DecidableEq, Repr

/-- The getNowPlayingMovies handler (lines 29–39): one retried fetch,
`data.results` on success, and a catch-all turning any error into
`{success:false, message}`.  The `undef` branch models the TypeError
thrown (and caught) when destructuring an `undefined` response. -/
def getNowPlayingMovies (att : Nat → Except Err NowPlayingData) :
    Resp (List TmdbMovie) :=
  match (fetchWithRetry att MAX_RETRIES).result with
  | .ok data => .success data.results
  | .err e => .failure e.message
  | .undef => .failure "Cannot read properties of undefined"

/-- The addShow handler (lines 42–106).  `createErr` and `insertErr` are
the oracles for the `Movie.create` and `Show.insertMany` rejections.
The inner catch (line 76) prefixes the message; an `insertMany`
rejection reaches the outer catch (line 102).  Returns the response
and the resulting persisted state. -/
def addShow (db : DB) (movieId : String) (showsInput : List ScheduleEntry)
    (showPrice : ℚ)
    (dAtt : Nat → Except Err TmdbMovie) (cAtt : Nat → Except Err TmdbCredits)
    (createErr insertErr : Option Err) : Resp String × DB :=
  match (resolveMovie db.movies movieId dAtt cAtt createErr).outcome with
  | .error e =>
    (.failure ("Failed to fetch movie from TMDB: " ++ e.message), db)
  | .ok (_, movies1) =>
    let db1 : DB := { movies := movies1, shows := db.shows, nextId := db.nextId }
    let showsToCreate := buildShows movieId showPrice showsInput
    if showsToCreate.length > 0 then
      match insertErr with
      | some e => (.failure e.message, db1)
      | none => (.success "Show Added successfully.", insertManyShows db1 showsToCreate)
    else
      (.success "Show Added successfully.", db1)

/-- Stable insertion of a show into a list sorted ascending by
`showDateTime` (models `.sort({ showDateTime: 1 })`). -/
def sortedInsert (sh : StoredShow) : List StoredShow → List StoredShow
  | [] => [sh]
  | x :: xs =>
    if dateLe x.showDateTime sh.showDateTime then x :: sortedInsert sh xs
    else sh :: x :: xs

/-- Sort shows ascending by `showDateTime`. -/
def sortShows : List StoredShow → List StoredShow
  | [] => []
  | x :: xs => sortedInsert x (sortShows xs)

/-- JS `new Set(...)` insertion over a list, keeping first occurrences in
insertion order (`Array.from` then reads the set back in that order). -/
def dedupAux {α : Type} [DecidableEq α] (acc : List α) : List α → List α
  | [] => acc
  | x :: xs => dedupAux (if x ∈ acc then acc else acc ++ [x]) xs

/-- Model of `Array.from(new Set(l))`. -/
def jsSetDedup {α : Type} [DecidableEq α] (l : List α) : List α :=
  dedupAux [] l

/-- The getShows handler (lines 109–121): upcoming shows sorted by
`showDateTime`, populated to their movies, deduplicated via a `Set`.
`dbe` is the oracle for a rejected storage query, handled by the catch. -/
def getShows (db : DB) (now : String) (dbe : Option Err) :
    Resp (List (Option Movie)) :=
  match dbe with
  | some e => .failure e.message
  | none =>
    let shows := sortShows (db.shows.filter (fun sh => dateLe now sh.showDateTime))
    let uniqueShows := jsSetDedup (shows.map (fun sh => findMovie db.movies sh.movie))
    .success uniqueShows

/-- One `{time, showId}` entry of the `dateTime` grouping. -/
structure TimeEntry where
  time : String
  showId : ℕ
deriving DecidableEq, Repr

/-- The body of the `forEach` at getShow lines 134–140: push the entry
onto the bucket for `d`, creating the bucket (in insertion order of
keys, as JS object keys are) when absent. -/
def pushEntry (m : List (String × List TimeEntry)) (d : String)
    (e : TimeEntry) : List (String × List TimeEntry) :=
  if m.any (fun p => p.1 == d) then
    m.map (fun p => if p.1 == d then (p.1, p.2 ++ [e]) else p)
  else
    m ++ [(d, [e])]

/-- The `forEach` loop building the `dateTime` object. -/
def buildDateTime : List StoredShow → List (String × List TimeEntry) →
    List (String × List TimeEntry)
  | [], m => m
  | sh :: rest, m =>
    buildDateTime rest (pushEntry m (dateOf sh.showDateTime) ⟨sh.showDateTime, sh._id⟩)

/-- The query `Show.find` on `movie: movieId, showDateTime: $gte now` — in
natural (insertion) order: the source applies no sort here. -/
def upcomingShowsFor (db : DB) (now movieId : String) : List StoredShow :=
  db.shows.filter (fun sh => sh.movie == movieId && dateLe now sh.showDateTime)

/-- The getShow handler (lines 125–147): upcoming shows of the movie
grouped by UTC calendar date, plus the movie looked up by id (possibly
`null` — the source does not check existence).  `dbe` is the oracle for
a rejected storage call, handled by the catch. -/
def getShow (db : DB) (now movieId : String) (dbe : Option Err) :
    Resp (Option Movie × List (String × List TimeEntry)) :=
  match dbe with
  | some e => .failure e.message
  | none =>
    let shows := upcomingShowsFor db now movieId
    let movie := findMovie db.movies movieId
    let dateTime := buildDateTime shows []
    .success (movie, dateTime)

/-- A response is structured: success, or failure carrying a non-empty
(human-readable) message. -/
def isStructured {π : Type} : Resp π → Prop
  | .success _ => True
  | .failure m => m ≠ ""

/-- Whether a grouped bucket list is ascending by time within every
date bucket. -/
def ascendingB : List TimeEntry → Bool
  | [] => true
  | [_] => true
  | a :: b :: rest => dateLe a.time b.time && ascendingB (b :: rest)

/-- Whether every date bucket of a `dateTime` grouping is ascending by
time. -/
def bucketsAscending (dt : List (String × List TimeEntry)) : Bool :=
  dt.all (fun p => ascendingB p.2)

/-- Extract the `dateTime` grouping from a getShow response. -/
def respDateTime : Resp (Option Movie × List (String × List TimeEntry)) →
    List (String × List TimeEntry)
  | .success p => p.2
  | .failure _ => []

/-- Invariant of the `dateTime`-building loop after processing the shows
`procd`: date keys are unique, each bucket holds exactly the entries of
the processed shows of that date in processed order, and every processed
show's date has a bucket. -/
def GroupInv (m : List (String × List TimeEntry)) (procd : List StoredShow) : Prop :=
  (m.map (fun p => p.1)).Nodup
  ∧ (∀ p ∈ m, p.2 = (procd.filter (fun sh => dateOf sh.showDateTime == p.1)).map
      (fun sh => ⟨sh.showDateTime, sh._id⟩))
  ∧ (∀ sh ∈ procd, dateOf sh.showDateTime ∈ m.map (fun p => p.1))

/-- A sample TMDB details payload (no tagline upstream). -/
def tmdbSample : TmdbMovie :=
  { title := "Title"
    overview := "Overview"
    poster_path := "/p.png"
    backdrop_path := "/b.png"
    genres := ["Drama"]
    casts := ["Alice"]
    release_date := "2024-01-01"
    original_language := "en"
    tagline := none
    vote_average := 7
    runtime := 120 }

/-- A sample TMDB credits payload. -/
def creditsSample : TmdbCredits := ⟨["Alice"]⟩

/-- The movie obtained by normalizing `tmdbSample` under id `"5"`. -/
def movieSample : Movie := normalizeMovie "5" tmdbSample

/-- A duplicate-key rejection as MongoDB reports it. -/
def e11000 : Err := ⟨"E11000 duplicate key error"⟩

/-- Two sample persisted movies. -/
def movieA : Movie := normalizeMovie "A" tmdbSample

def movieB : Movie := normalizeMovie "B" tmdbSample

/-- A state with two future shows for movie A and one past show for
movie B (relative to `"2024-01-01T00:00"`). -/
def dbUpcoming : DB :=
  { movies := [movieA, movieB]
    shows := [⟨1, "A", "2099-05-01T14:00", 10, []⟩,
              ⟨2, "A", "2099-05-01T18:00", 10, []⟩,
              ⟨3, "B", "2001-01-01T10:00", 10, []⟩]
    nextId := 4 }

/-- A state whose shows for movie A were inserted with the later
showtime first. -/
def dbUnordered : DB :=
  { movies := [movieA]
    shows := [⟨1, "A", "2099-05-01T18:00", 10, []⟩,
              ⟨2, "A", "2099-05-01T14:00", 10, []⟩]
    nextId := 3 }

/-- The scheduling input of the spec's example: two times on one date,
one on another. -/
def scheduleSample : List ScheduleEntry :=
  [⟨"2024-05-01", ["14:00", "18:00"]⟩, ⟨"2024-05-02", ["20:00"]⟩]

/-- Appending a movie that matches makes it the lookup result, when the
id was absent before. -/
theorem findMovie_append_of_none {movies : List Movie} {movieId : String}
    (m : Movie) (h : findMovie movies movieId = none) (hm : m._id = movieId) :
    findMovie (movies ++ [m]) movieId = some m := by
  simp only [findMovie] at *
  induction movies with
  | nil => simp [List.find?, hm]
  | cons a as ih =>
    simp only [List.cons_append, List.find?] at h ⊢
    cases hc : (a._id == movieId) with
    | true =>
      rw [hc] at h
      exact Option.noConfusion h
    | false =>
      rw [hc] at h
      exact ih h

/-- Unfolding the retry loop: zero remaining iterations. -/
theorem fetchLoop_zero {ρ : Type} (att : Nat → Except Err ρ) (retries i : Nat) :
    fetchLoop att retries 0 i = ⟨.undef, 0, []⟩ := rfl

/-- Unfolding the retry loop: one more iteration. -/
theorem fetchLoop_succ {ρ : Type} (att : Nat → Except Err ρ) (retries fuel i : Nat) :
    fetchLoop att retries (fuel + 1) i =
      match att i with
      | .ok r => ⟨.ok r, 1, []⟩
      | .error e =>
        if i = retries - 1 then
          ⟨.err e, 1, []⟩
        else
          let rest := fetchLoop att retries fuel (i + 1)
          ⟨rest.result, rest.attempts + 1, (RETRY_DELAY * 2 ^ i) :: rest.delays⟩ := rfl

/-- A fetch whose first attempt succeeds resolves at once. -/
theorem fetchWithRetry_first_ok {ρ : Type} {att : Nat → Except Err ρ} {r : ρ}
    (h : att 0 = .ok r) :
    fetchWithRetry att MAX_RETRIES = ⟨.ok r, 1, []⟩ := by
  have h3 : MAX_RETRIES.toNat = 2 + 1 := by decide
  unfold fetchWithRetry
  rw [h3, fetchLoop_succ, h]

/-- C1: resolution step of addShow.  If the movieId is already stored,
the stored Movie is returned with zero external fetches and no change to
the store.  If it is absent (and the fetches succeed on their first
attempt and the create is not rejected), exactly one details-fetch and
one credits-fetch are issued and exactly one Movie — the normalized
response — is appended to the store; resolving the same id again then
issues zero fetches and returns that stored Movie. -/
theorem resolveMovie_cache_spec (movies : List Movie) (movieId : String)
    (dAtt : Nat → Except Err TmdbMovie) (cAtt : Nat → Except Err TmdbCredits)
    (createErr : Option Err) :
    (∀ m, findMovie movies movieId = some m →
      resolveMovie movies movieId dAtt cAtt createErr = ⟨.ok (m, movies), 0, 0⟩)
    ∧ (∀ d c, findMovie movies movieId = none → dAtt 0 = .ok d → cAtt 0 = .ok c →
      createErr = none →
      resolveMovie movies movieId dAtt cAtt createErr
        = ⟨.ok (normalizeMovie movieId d, movies ++ [normalizeMovie movieId d]), 1, 1⟩
      ∧ resolveMovie (movies ++ [normalizeMovie movieId d]) movieId dAtt cAtt createErr
        = ⟨.ok (normalizeMovie movieId d, movies ++ [normalizeMovie movieId d]), 0, 0⟩) := by
  constructor
  · intro m h
    unfold resolveMovie
    rw [h]
  · intro d c h hd hc hce
    constructor
    · unfold resolveMovie
      rw [h, hce, fetchWithRetry_first_ok hd, fetchWithRetry_first_ok hc]
    · unfold resolveMovie
      rw [findMovie_append_of_none (normalizeMovie movieId d) h rfl]

/-- C1 witness: a cached id resolves with zero fetches; an uncached id
resolves with one details-fetch and one credits-fetch and persists one
Movie. -/
theorem resolveMovie_cache_spec_witness :
    resolveMovie [movieSample] "5" (fun _ => .ok tmdbSample)
        (fun _ => .ok creditsSample) none
      = ⟨.ok (movieSample, [movieSample]), 0, 0⟩
    ∧ resolveMovie [] "5" (fun _ => .ok tmdbSample)
        (fun _ => .ok creditsSample) none
      = ⟨.ok (movieSample, [movieSample]), 1, 1⟩ := by
  refine ⟨(resolveMovie_cache_spec [movieSample] "5" _ _ none).1 movieSample rfl, ?_⟩
  have h := ((resolveMovie_cache_spec [] "5" (fun _ => .ok tmdbSample)
    (fun _ => .ok creditsSample) none).2 tmdbSample creditsSample rfl rfl rfl rfl).1
  simpa [movieSample] using h

/-- C9: normalization and round-trip.  The normalized record's tagline
is the empty string when the upstream tagline is absent and the upstream
value otherwise; every other field is copied verbatim from the details
response; and after an uncached resolve persists the normalized Movie,
reading the id back from storage yields that exact record,
field-for-field. -/
theorem normalizeMovie_roundtrip (movieId : String) (d : TmdbMovie)
    (c : TmdbCredits) (movies : List Movie)
    (h : findMovie movies movieId = none) :
    (d.tagline = none → (normalizeMovie movieId d).tagline = "")
    ∧ (∀ t, d.tagline = some t → (normalizeMovie movieId d).tagline = t)
    ∧ (normalizeMovie movieId d)._id = movieId
    ∧ (normalizeMovie movieId d).title = d.title
    ∧ (normalizeMovie movieId d).overview = d.overview
    ∧ (normalizeMovie movieId d).poster_path = d.poster_path
    ∧ (normalizeMovie movieId d).backdrop_path = d.backdrop_path
    ∧ (normalizeMovie movieId d).genres = d.genres
    ∧ (normalizeMovie movieId d).casts = d.casts
    ∧ (normalizeMovie movieId d).release_date = d.release_date
    ∧ (normalizeMovie movieId d).original_language = d.original_language
    ∧ (normalizeMovie movieId d).vote_average = d.vote_average
    ∧ (normalizeMovie movieId d).runtime = d.runtime
    ∧ (resolveMovie movies movieId (fun _ => .ok d) (fun _ => .ok c)
        none).outcome
      = .ok (normalizeMovie movieId d, movies ++ [normalizeMovie movieId d])
    ∧ findMovie (movies ++ [normalizeMovie movieId d]) movieId
      = some (normalizeMovie movieId d) := by
  refine ⟨fun ht => ?_, fun t ht => ?_, rfl, rfl, rfl, rfl, rfl, rfl, rfl, rfl,
    rfl, rfl, rfl, ?_, findMovie_append_of_none _ h rfl⟩
  · simp [normalizeMovie, ht]
  · simp [normalizeMovie, ht]
  · unfold resolveMovie
    rw [h, fetchWithRetry_first_ok (r := d) rfl, fetchWithRetry_first_ok (r := c) rfl]

/-- C9 witness: the sample payload, which lacks a tagline, normalizes
with an empty tagline and round-trips through the store. -/
theorem normalizeMovie_roundtrip_witness :
    (normalizeMovie "5" tmdbSample).tagline = ""
    ∧ findMovie ([] ++ [normalizeMovie "5" tmdbSample]) "5"
      = some (normalizeMovie "5" tmdbSample) := by
  have h := normalizeMovie_roundtrip "5" tmdbSample creditsSample [] rfl
  exact ⟨h.1 rfl, h.2.2.2.2.2.2.2.2.2.2.2.2.2.2⟩

/-- C6: a duplicate-key rejection of `Movie.create` (the second of two
concurrent creates) is caught — addShow answers a structured failure,
so the process does not crash — but it is surfaced with the generic
`Failed to fetch movie from TMDB:` message, byte-identical to the
response produced by a details-fetch failure with the same underlying
message: no distinguishable conflict condition exists. -/
theorem addShow_conflict_indistinguishable :
    (addShow ⟨[], [], 0⟩ "5" [] 10 (fun _ => .ok tmdbSample)
        (fun _ => .ok creditsSample) (some e11000) none).1
      = .failure ("Failed to fetch movie from TMDB: " ++ e11000.message)
    ∧ (addShow ⟨[], [], 0⟩ "5" [] 10 (fun _ => .error e11000)
        (fun _ => .ok creditsSample) none none).1
      = .failure ("Failed to fetch movie from TMDB: " ++ e11000.message) := by
  exact ⟨rfl, rfl⟩

/-- C7: getShow for a movieId that does not exist in storage replies
`success: true` with a `null` movie and an empty grouping — a silently
empty availability result, not a distinctly surfaced error. -/
theorem getShow_missing_movie_success :
    getShow ⟨[], [], 0⟩ "2024-01-01T00:00" "missing" none
      = .success (none, []) := rfl

/-- Resolution short-circuits on a cached movie. -/
theorem resolveMovie_of_found {movies : List Movie} {movieId : String}
    {m : Movie} (h : findMovie movies movieId = some m)
    (dAtt : Nat → Except Err TmdbMovie) (cAtt : Nat → Except Err TmdbCredits)
    (ce : Option Err) :
    resolveMovie movies movieId dAtt cAtt ce = ⟨.ok (m, movies), 0, 0⟩ := by
  unfold resolveMovie
  rw [h]

/-- The array `showsToCreate` has one element per `(date, time)` pair: its length
is the sum of the per-entry time-list lengths. -/
theorem buildShows_length (movieId : String) (price : ℚ) :
    ∀ input : List ScheduleEntry,
      (buildShows movieId price input).length
        = (input.map (fun s => s.time.length)).sum
  | [] => rfl
  | s :: rest => by
    simp [buildShows, buildShows_length movieId price rest]

/-- Membership in `showsToCreate`: exactly the documents of the cross
product implied by the schedule input. -/
theorem mem_buildShows (movieId : String) (price : ℚ)
    (input : List ScheduleEntry) (doc : ShowDoc) :
    doc ∈ buildShows movieId price input
      ↔ ∃ s ∈ input, ∃ t ∈ s.time,
          doc = ⟨movieId, s.date ++ "T" ++ t, price, []⟩ := by
  induction input with
  | nil => simp [buildShows]
  | cons s rest ih =>
    simp only [buildShows, List.mem_append, List.mem_map, ih, List.mem_cons]
    constructor
    · rintro (⟨t, ht, rfl⟩ | ⟨s1, hs1, t, ht, rfl⟩)
      · exact ⟨s, Or.inl rfl, t, ht, rfl⟩
      · exact ⟨s1, Or.inr hs1, t, ht, rfl⟩
    · rintro ⟨s1, hs1 | hs1, t, ht, rfl⟩
      · exact Or.inl ⟨t, by rw [hs1] at ht ⊢; exact ⟨ht, rfl⟩⟩
      · exact Or.inr ⟨s1, hs1, t, ht, rfl⟩

/-- When the movie is already cached and the bulk insert is not
rejected, addShow reports success and writes the built documents (none
when the schedule is empty). -/
theorem addShow_of_found {db : DB} {movieId : String} {m : Movie}
    (input : List ScheduleEntry) (price : ℚ)
    (dAtt : Nat → Except Err TmdbMovie) (cAtt : Nat → Except Err TmdbCredits)
    (ce : Option Err) (h : findMovie db.movies movieId = some m) :
    addShow db movieId input price dAtt cAtt ce none
      = (.success "Show Added successfully.",
         if (buildShows movieId price input).length > 0
         then insertManyShows db (buildShows movieId price input)
         else db) := by
  unfold addShow
  rw [resolveMovie_of_found h]
  by_cases hl : (buildShows movieId price input).length > 0
  · simp [hl]
  · simp [hl]

/-- C3: for a resolvable movie, addShow builds exactly one Show document
per `(date, time)` pair of the schedule input — the count is the sum of
the per-entry time-list lengths; every document carries the given price,
an empty seat-occupancy mapping, and the instant combining its date and
time — and persists exactly that many Shows, reporting success; an empty
schedule input writes nothing and still reports success. -/
theorem addShow_createShows_spec (db : DB) (movieId : String)
    (input : List ScheduleEntry) (price : ℚ) (m : Movie)
    (dAtt : Nat → Except Err TmdbMovie) (cAtt : Nat → Except Err TmdbCredits)
    (ce : Option Err) (h : findMovie db.movies movieId = some m) :
    (buildShows movieId price input).length
      = (input.map (fun s => s.time.length)).sum
    ∧ (∀ doc ∈ buildShows movieId price input,
        doc.movie = movieId ∧ doc.showPrice = price ∧ doc.occupiedSeats = []
        ∧ ∃ s ∈ input, ∃ t ∈ s.time, doc.showDateTime = s.date ++ "T" ++ t)
    ∧ (∀ s ∈ input, ∀ t ∈ s.time, ∃ doc ∈ buildShows movieId price input,
        doc.showDateTime = s.date ++ "T" ++ t)
    ∧ (addShow db movieId input price dAtt cAtt ce none).1
      = .success "Show Added successfully."
    ∧ ((addShow db movieId input price dAtt cAtt ce none).2).shows.length
      = db.shows.length + (buildShows movieId price input).length
    ∧ (input = [] → (addShow db movieId input price dAtt cAtt ce none).2 = db) := by
  refine ⟨buildShows_length movieId price input, ?_, ?_, ?_, ?_, ?_⟩
  · intro doc hd
    rcases (mem_buildShows movieId price input doc).1 hd with ⟨s, hs, t, ht, rfl⟩
    exact ⟨rfl, rfl, rfl, s, hs, t, ht, rfl⟩
  · intro s hs t ht
    exact ⟨⟨movieId, s.date ++ "T" ++ t, price, []⟩,
      (mem_buildShows movieId price input _).2 ⟨s, hs, t, ht, rfl⟩, rfl⟩
  · rw [addShow_of_found input price dAtt cAtt ce h]
  · rw [addShow_of_found input price dAtt cAtt ce h]
    by_cases hl : (buildShows movieId price input).length > 0
    · simp [hl, insertManyShows]
    · have h0 : (buildShows movieId price input).length = 0 := by omega
      simp [hl, h0]
  · intro hinput
    subst hinput
    rw [addShow_of_found [] price dAtt cAtt ce h]
    rfl

/-- C3 witness: the spec's example schedule creates exactly 3 Shows and
reports success, growing the Show collection from 3 to 6. -/
theorem addShow_createShows_spec_witness :
    (buildShows "A" (12.5 : ℚ) scheduleSample).length = 3
    ∧ (addShow dbUpcoming "A" scheduleSample (12.5 : ℚ)
        (fun _ => .ok tmdbSample) (fun _ => .ok creditsSample) none none).1
      = .success "Show Added successfully."
    ∧ ((addShow dbUpcoming "A" scheduleSample (12.5 : ℚ)
        (fun _ => .ok tmdbSample) (fun _ => .ok creditsSample) none none).2).shows.length
      = 6 := by
  have h := addShow_createShows_spec dbUpcoming "A" scheduleSample (12.5 : ℚ)
    movieA (fun _ => .ok tmdbSample) (fun _ => .ok creditsSample) none rfl
  exact ⟨h.1.trans rfl, h.2.2.2.1, (h.2.2.2.2.1).trans rfl⟩

/-- Sorted insertion preserves the elements. -/
theorem mem_sortedInsert (sh a : StoredShow) :
    ∀ l : List StoredShow, a ∈ sortedInsert sh l ↔ a = sh ∨ a ∈ l
  | [] => by simp [sortedInsert]
  | x :: xs => by
    simp only [sortedInsert]
    split
    · simp only [List.mem_cons, mem_sortedInsert sh a xs]
      tauto
    · simp only [List.mem_cons]

/-- Sorting preserves the elements. -/
theorem mem_sortShows (a : StoredShow) :
    ∀ l : List StoredShow, a ∈ sortShows l ↔ a ∈ l
  | [] => Iff.rfl
  | x :: xs => by
    simp only [sortShows, mem_sortedInsert, mem_sortShows a xs, List.mem_cons]

/-- A `Set` insertion preserves the elements seen so far. -/
theorem mem_dedupAux {α : Type} [DecidableEq α] (a : α) :
    ∀ (l acc : List α), a ∈ dedupAux acc l ↔ a ∈ acc ∨ a ∈ l
  | [], acc => by simp [dedupAux]
  | x :: xs, acc => by
    simp only [dedupAux]
    split
    · rename_i hx
      rw [mem_dedupAux a xs acc]
      simp only [List.mem_cons]
      constructor
      · tauto
      · rintro (h | rfl | h) <;> tauto
    · rw [mem_dedupAux a xs (acc ++ [x])]
      simp only [List.mem_append, List.mem_cons, List.mem_singleton]
      tauto

/-- A `Set` insertion never introduces a duplicate. -/
theorem nodup_dedupAux {α : Type} [DecidableEq α] :
    ∀ (l acc : List α), acc.Nodup → (dedupAux acc l).Nodup
  | [], _, h => h
  | x :: xs, acc, h => by
    simp only [dedupAux]
    split
    · exact nodup_dedupAux xs acc h
    · rename_i hx
      refine nodup_dedupAux xs (acc ++ [x]) ?_
      simp [List.nodup_append, h, hx]

/-- Characterization of `findById` when movie ids are unique (they are:
`_id` is the primary key). -/
theorem findMovie_eq_some_iff {movies : List Movie} {movieId : String}
    (hids : (movies.map (fun m => m._id)).Nodup) (m : Movie) :
    findMovie movies movieId = some m ↔ m ∈ movies ∧ m._id = movieId := by
  unfold findMovie
  constructor
  · intro h
    exact ⟨List.mem_of_find?_eq_some h, by simpa using List.find?_some h⟩
  · rintro ⟨hmem, hid⟩
    cases hf : movies.find? (fun x => x._id == movieId) with
    | none =>
      exfalso
      have hn := List.find?_eq_none.mp hf m hmem
      simp [hid] at hn
    | some m1 =>
      have h1 := List.mem_of_find?_eq_some hf
      have h2 : m1._id = movieId := by simpa using List.find?_some hf
      have h3 : m1 = m :=
        List.inj_on_of_nodup_map hids h1 hmem (by rw [h2, hid])
      rw [h3]

/-- C4: with unique movie ids, getShows lists exactly the movies having
at least one upcoming show (`showDateTime >= now`), each exactly once —
shows of the same movie are collapsed by the Set, and movies whose shows
all lie in the past do not appear. -/
theorem getShows_unique_upcoming (db : DB) (now : String)
    (hids : (db.movies.map (fun m => m._id)).Nodup) :
    ∃ l, getShows db now none = .success l ∧ l.Nodup
      ∧ ∀ m : Movie, (some m ∈ l ↔ m ∈ db.movies
          ∧ ∃ sh ∈ db.shows, sh.movie = m._id
            ∧ dateLe now sh.showDateTime = true) := by
  refine ⟨_, rfl, ?_, ?_⟩
  · exact nodup_dedupAux _ [] List.nodup_nil
  · intro m
    rw [jsSetDedup, mem_dedupAux, List.mem_map]
    simp only [List.not_mem_nil, false_or]
    constructor
    · rintro ⟨sh, hsh, hf⟩
      rw [mem_sortShows, List.mem_filter] at hsh
      have hm := (findMovie_eq_some_iff hids m).1 hf
      exact ⟨hm.1, sh, hsh.1, hm.2.symm, hsh.2⟩
    · rintro ⟨hm, sh, hsh, hid, hle⟩
      refine ⟨sh, ?_, (findMovie_eq_some_iff hids m).2 ⟨hm, hid.symm⟩⟩
      rw [mem_sortShows, List.mem_filter]
      exact ⟨hsh, hle⟩

/-- C4 witness: the sample state — two future shows for movie A, one
past show for movie B — lists A exactly once and omits B. -/
theorem getShows_unique_upcoming_witness :
    ∃ l, getShows dbUpcoming "2024-01-01T00:00" none = .success l ∧ l.Nodup
      ∧ ∀ m : Movie, (some m ∈ l ↔ m ∈ dbUpcoming.movies
          ∧ ∃ sh ∈ dbUpcoming.shows, sh.movie = m._id
            ∧ dateLe "2024-01-01T00:00" sh.showDateTime = true) :=
  getShows_unique_upcoming dbUpcoming "2024-01-01T00:00" (by decide)

/-- C5 counterexample: getShow applies no sort, so a date bucket keeps
the store's retrieval order.  With the 18:00 show inserted before the
14:00 show of the same date, the bucket comes back as
`[18:00, 14:00]` — not ascending by time. -/
theorem getShow_bucket_not_sorted :
    respDateTime (getShow dbUnordered "2024-01-01T00:00" "A" none)
      = [("2099-05-01", [⟨"2099-05-01T18:00", 1⟩, ⟨"2099-05-01T14:00", 2⟩])]
    ∧ bucketsAscending
        (respDateTime (getShow dbUnordered "2024-01-01T00:00" "A" none))
      = false :=
  ⟨rfl, rfl⟩

/-- One step of the `forEach` grouping loop preserves the invariant. -/
theorem pushEntry_inv {m : List (String × List TimeEntry)}
    {procd : List StoredShow} (h : GroupInv m procd) (sh : StoredShow) :
    GroupInv (pushEntry m (dateOf sh.showDateTime) ⟨sh.showDateTime, sh._id⟩)
      (procd ++ [sh]) := by
  obtain ⟨hnd, hbuck, hcov⟩ := h
  unfold pushEntry
  by_cases hany : m.any (fun p => p.1 == dateOf sh.showDateTime) = true
  · rw [if_pos hany]
    have hkeys : (m.map (fun p =>
        if p.1 == dateOf sh.showDateTime
        then (p.1, p.2 ++ [(⟨sh.showDateTime, sh._id⟩ : TimeEntry)])
        else p)).map (fun p => p.1) = m.map (fun p => p.1) := by
      rw [List.map_map]
      apply List.map_congr_left
      intro p _
      by_cases hpd : p.1 = dateOf sh.showDateTime
      · simp [hpd]
      · simp [hpd]
    refine ⟨by rw [hkeys]; exact hnd, ?_, ?_⟩
    · intro p hp
      rw [List.mem_map] at hp
      obtain ⟨q, hq, hpq⟩ := hp
      by_cases hqd : q.1 = dateOf sh.showDateTime
      · rw [if_pos (by simp [hqd])] at hpq
        subst hpq
        rw [List.filter_append, List.map_append, hbuck q hq]
        simp [List.filter, hqd]
      · rw [if_neg (by simp [hqd])] at hpq
        subst hpq
        rw [List.filter_append, List.map_append, hbuck q hq]
        have hq1 : ¬ (dateOf sh.showDateTime == q.1) = true := by
          simp
          intro hcon
          exact hqd hcon.symm
        simp [List.filter, hq1]
    · intro sh1 hsh1
      rw [List.mem_append] at hsh1
      rw [hkeys]
      rcases hsh1 with hsh1 | hsh1
      · exact hcov sh1 hsh1
      · rw [List.mem_singleton] at hsh1
        subst hsh1
        rw [List.any_eq_true] at hany
        obtain ⟨p, hp, hpd⟩ := hany
        rw [List.mem_map]
        exact ⟨p, hp, eq_of_beq hpd⟩
  · rw [if_neg hany]
    have hd_not : dateOf sh.showDateTime ∉ m.map (fun p => p.1) := by
      intro hmem
      rw [List.mem_map] at hmem
      obtain ⟨p, hp, hpd⟩ := hmem
      exact hany (List.any_eq_true.mpr ⟨p, hp, by rw [hpd]; simp⟩)
    refine ⟨?_, ?_, ?_⟩
    · rw [List.map_append]
      simp [List.nodup_append, hnd, hd_not]
    · intro p hp
      rw [List.mem_append] at hp
      rcases hp with hp | hp
      · have hp1 : ¬ (dateOf sh.showDateTime == p.1) = true := by
          simp
          intro hcon
          apply hd_not
          rw [hcon]
          exact List.mem_map.mpr ⟨p, hp, rfl⟩
        rw [List.filter_append, List.map_append, hbuck p hp]
        simp [List.filter, hp1]
      · rw [List.mem_singleton] at hp
        subst hp
        have hfil : procd.filter
            (fun sh1 => dateOf sh1.showDateTime == dateOf sh.showDateTime) = [] := by
          rw [List.filter_eq_nil_iff]
          intro sh1 hsh1
          intro hcon
          have hc := hcov sh1 hsh1
          rw [eq_of_beq hcon] at hc
          exact hd_not hc
        rw [List.filter_append, List.map_append, hfil]
        simp [List.filter]
    · intro sh1 hsh1
      rw [List.mem_append] at hsh1
      rw [List.map_append, List.mem_append]
      rcases hsh1 with hsh1 | hsh1
      · exact Or.inl (hcov sh1 hsh1)
      · rw [List.mem_singleton] at hsh1
        subst hsh1
        exact Or.inr (by simp)

/-- The grouping loop establishes the invariant over all processed
shows. -/
theorem buildDateTime_inv :
    ∀ (shows procd : List StoredShow) (m : List (String × List TimeEntry)),
      GroupInv m procd → GroupInv (buildDateTime shows m) (procd ++ shows)
  | [], procd, m, h => by simpa using h
  | sh :: rest, procd, m, h => by
    have h2 := buildDateTime_inv rest (procd ++ [sh]) _ (pushEntry_inv h sh)
    simpa [List.append_assoc] using h2

/-- C5 (amended): getShow groups the upcoming shows of the movie by the
UTC calendar-date component of `showDateTime` with exactly one key per
distinct date, and each bucket holds exactly the `{time, showId}`
entries of that date's shows — in the order the store returns them
(insertion order), not necessarily ascending by time. -/
theorem getShow_grouping (db : DB) (now movieId : String) :
    ∃ dt, getShow db now movieId none
        = .success (findMovie db.movies movieId, dt)
      ∧ (dt.map (fun p => p.1)).Nodup
      ∧ (∀ p ∈ dt, p.2 = ((upcomingShowsFor db now movieId).filter
          (fun sh => dateOf sh.showDateTime == p.1)).map
            (fun sh => ⟨sh.showDateTime, sh._id⟩))
      ∧ (∀ sh ∈ upcomingShowsFor db now movieId,
          dateOf sh.showDateTime ∈ dt.map (fun p => p.1)) := by
  have h0 : GroupInv [] [] := by
    refine ⟨List.nodup_nil, ?_, ?_⟩ <;> intro p hp <;> cases hp
  have h := buildDateTime_inv (upcomingShowsFor db now movieId) [] [] h0
  rw [List.nil_append] at h
  exact ⟨buildDateTime (upcomingShowsFor db now movieId) [], rfl,
    h.1, h.2.1, h.2.2⟩

/-- Any error the retry loop surfaces originated in one of the issued
attempts. -/
theorem fetchLoop_err_attempt {ρ : Type} (att : Nat → Except Err ρ)
    (retries : Nat) :
    ∀ (fuel i : Nat) (e : Err),
      (fetchLoop att retries fuel i).result = .err e → ∃ j, att j = .error e
  | 0, i, e, h => by
    rw [fetchLoop_zero] at h
    exact FetchResult.noConfusion h
  | fuel + 1, i, e, h => by
    rw [fetchLoop_succ] at h
    cases ha : att i with
    | ok r =>
      rw [ha] at h
      exact FetchResult.noConfusion h
    | error e1 =>
      rw [ha] at h
      dsimp only at h
      by_cases hi : i = retries - 1
      · rw [if_pos hi] at h
        have he : e1 = e := by
          have h2 : FetchResult.err (ρ := ρ) e1 = .err e := h
          injection h2
        exact ⟨i, by rw [ha, he]⟩
      · rw [if_neg hi] at h
        exact fetchLoop_err_attempt att retries fuel (i + 1) e h

/-- C8: every public operation returns a structured result — success, or
failure with a non-empty human-readable message — for every combination
of internal-failure oracles (fetch errors on any attempt, a rejected
create, a rejected bulk insert, rejected storage queries); no failure
escapes the handlers.  The hypotheses say the underlying errors carry
non-empty messages. -/
theorem handlers_structured (db : DB) (now movieId : String)
    (input : List ScheduleEntry) (price : ℚ)
    (npAtt : Nat → Except Err NowPlayingData)
    (dAtt : Nat → Except Err TmdbMovie) (cAtt : Nat → Except Err TmdbCredits)
    (ce ie dbe1 dbe2 : Option Err)
    (hnp : ∀ j e, npAtt j = .error e → e.message ≠ "")
    (hie : ∀ e, ie = some e → e.message ≠ "")
    (hdb1 : ∀ e, dbe1 = some e → e.message ≠ "")
    (hdb2 : ∀ e, dbe2 = some e → e.message ≠ "") :
    isStructured (getNowPlayingMovies npAtt)
    ∧ isStructured (addShow db movieId input price dAtt cAtt ce ie).1
    ∧ isStructured (getShows db now dbe1)
    ∧ isStructured (getShow db now movieId dbe2) := by
  refine ⟨?_, ?_, ?_, ?_⟩
  · unfold getNowPlayingMovies
    cases hr : (fetchWithRetry npAtt MAX_RETRIES).result with
    | ok d => simp [isStructured]
    | err e =>
      obtain ⟨j, hj⟩ := fetchLoop_err_attempt npAtt _ _ _ e hr
      simpa [isStructured] using hnp j e hj
    | undef => simp [isStructured]
  · cases hr : (resolveMovie db.movies movieId dAtt cAtt ce).outcome with
    | error e =>
      unfold addShow
      rw [hr]
      simp only [isStructured]
      intro hcon
      have h1 : ("Failed to fetch movie from TMDB: " ++ e.message).length = 0 := by
        rw [hcon]
        rfl
      rw [String.length_append] at h1
      have h2 : ("Failed to fetch movie from TMDB: " : String).length = 33 := rfl
      omega
    | ok pair =>
      obtain ⟨mv, movies1⟩ := pair
      unfold addShow
      rw [hr]
      by_cases hl : (buildShows movieId price input).length > 0
      · cases hi : ie with
        | some e => simpa [isStructured, hl] using hie e hi
        | none => simp [isStructured, hl]
      · simp [isStructured, hl]
  · unfold getShows
    cases hd : dbe1 with
    | some e => simpa [isStructured] using hdb1 e hd
    | none => simp [isStructured]
  · unfold getShow
    cases hd : dbe2 with
    | some e => simpa [isStructured] using hdb2 e hd
    | none => simp [isStructured]

/-- C8 witness: with every oracle failing (fetch down, bulk insert and
storage queries rejected), all four handlers still answer structured
responses. -/
theorem handlers_structured_witness :
    isStructured (getNowPlayingMovies (fun _ => .error ⟨"boom"⟩))
    ∧ isStructured (addShow dbUpcoming "Z" scheduleSample 10
        (fun _ => .error ⟨"neterr"⟩) (fun _ => .ok creditsSample)
        none (some ⟨"bulkerr"⟩)).1
    ∧ isStructured (getShows dbUpcoming "2024-01-01T00:00" (some ⟨"dbdown"⟩))
    ∧ isStructured (getShow dbUpcoming "2024-01-01T00:00" "Z"
        (some ⟨"dbdown"⟩)) := by
  refine handlers_structured dbUpcoming "2024-01-01T00:00" "Z" scheduleSample 10
    (fun _ => .error ⟨"boom"⟩) (fun _ => .error ⟨"neterr"⟩)
    (fun _ => .ok creditsSample) none (some ⟨"bulkerr"⟩) (some ⟨"dbdown"⟩)
    (some ⟨"dbdown"⟩) ?_ ?_ ?_ ?_
  · intro j e h
    injection h with h1
    rw [← h1]
    decide
  · intro e h
    injection h with h1
    rw [← h1]
    decide
  · intro e h
    injection h with h1
    rw [← h1]
    decide
  · intro e h
    injection h with h1
    rw [← h1]
    decide

/-- C2: with the default configuration (3 retries) and an underlying
request failing on every attempt, exactly 3 attempts occur, the error of
the final (third) attempt is propagated unchanged, and the backoff
delays before the retries are 1000·2⁰ = 1000 ms and 1000·2¹ = 2000 ms. -/
theorem fetchWithRetry_allFail {ρ : Type} (e : Nat → Err) :
    fetchWithRetry (ρ := ρ) (fun i => .error (e i)) MAX_RETRIES
      = ⟨.err (e 2), 3, [1000, 2000]⟩ := by
  rfl

/-- C10: calling `fetchWithRetry` with a non-positive retries argument
performs no attempt at all and yields the silent third outcome
`undefined` — neither a response nor an error. -/
theorem fetchWithRetry_nonpos_undef {ρ : Type} (attempt : Nat → Except Err ρ)
    (retries : Int) (h : retries ≤ 0) :
    fetchWithRetry attempt retries = ⟨.undef, 0, []⟩ := by
  unfold fetchWithRetry
  rw [Int.toNat_eq_zero.mpr h]
  rfl

/-- C10 witness: at `retries = 0` with an always-succeeding request, no
attempt happens and the result is `undefined`. -/
theorem fetchWithRetry_nonpos_undef_witness :
    fetchWithRetry (fun _ => .ok (0 : Nat)) 0 = ⟨.undef, 0, []⟩ :=
  fetchWithRetry_nonpos_undef (fun _ => .ok (0 : Nat)) 0 (by decide)
